import Mathlib

/-!
Verification of the ASL glove logger and calibration capture programs.

The development shallowly embeds the two Python modules:

* `src/firmware/glove_logger.py` — the serial reader loop `serial_reader`
  is a fold of `serial_reader_step` over the list of decoded text lines
  (each line a `List Char`, trailing whitespace already stripped by the
  transport).  The mutable loop state (`current_rows`, `trial_id_active`)
  together with the rows written through the CSV writer and the
  trial-completion acknowledgments printed at each flush is the record
  `SegState`.

* `src/calibration_capture.py` — the calibration collection and reduction
  (`collect_calibration_data`, `calculate_calibration_values`,
  `run_full_calibration`), with sensor values embedded as rationals and a
  phase's serial input given as the list of float-parsed value vectors
  (comment / empty / unparsable lines leave the collection state unchanged
  in the source and are therefore omitted from the input list).
-/

namespace GloveLogger

/-- Boolean test that the second list begins with the first
(Python `str.startswith`). -/
def leadsWith : List Char → List Char → Bool
  | [], _ => true
  | _ :: _, [] => false
  | p :: ps, c :: cs => p == c && leadsWith ps cs

/-- Python `line.split(",")`: splits on every comma, keeping empty pieces,
and yields at least one field for every input. -/
def splitComma : List Char → List (List Char)
  | [] => [[]]
  | c :: cs =>
    if c = ',' then [] :: splitComma cs
    else
      match splitComma cs with
      | [] => [[c]]
      | f :: rest => (c :: f) :: rest

/-- Inverse serialization of a CSV row: joins fields with commas (what
`csv.writer.writerow` emits for comma-free, quote-free fields). -/
def joinComma : List (List Char) → List Char
  | [] => []
  | [f] => f
  | f :: rest => f ++ ',' :: joinComma rest

/-- The fixed header line written once at file creation
(`HEADER` in src/firmware/glove_logger.py line 15). -/
def HEADER : List Char :=
  ("t_s,flex1,flex2,flex3,flex4,flex5,roll_deg,pitch_deg,ax_g,ay_g,az_g,label,trial_id").data

/-- The stale-header test string of line 41: `line.startswith("t_s,")`. -/
def tsLead : List Char := ("t_s,").data

/-- `ROWS_PER_TRIAL = 75` (src/firmware/glove_logger.py line 16). -/
def ROWS_PER_TRIAL : Nat := 75

/-- State of the `serial_reader` loop (src/firmware/glove_logger.py
lines 33-77) plus its observable output: `output` records each flush event
as the pair of the trial id printed in the acknowledgment and the list of
rows passed to `writer.writerow` for that flush, in order. -/
structure SegState where
  current_rows : List (List (List Char))
  trial_id_active : Option (List Char)
  output : List (List Char × List (List (List Char)))
deriving DecidableEq

/-- Initial loop state: `current_rows = []`, `trial_id_active = None`
(lines 34-35), nothing written yet. -/
def initState : SegState := ⟨[], none, []⟩

/-- A decoded line reaches the segmentation code exactly when it is
nonempty (line 40), does not start with `t_s,` (line 42), has exactly 12
commas and does not start with `#` (line 49).  All other lines leave the
loop state unchanged (they are only echoed). -/
def acceptedData (line : List Char) : Bool :=
  !line.isEmpty && !leadsWith tsLead line &&
    (line.count ',' == 12) && !leadsWith ['#'] line

/-- The trial id of a data line: `parts[-1]` after `parts = line.split(",")`
(lines 50-51). -/
def tidOf (line : List Char) : List Char := (splitComma line).getLastD []

/-- One iteration of the `serial_reader` loop body for a decoded line
(src/firmware/glove_logger.py lines 38-73).  For an accepted data line:
adopt the id if `trial_id_active` is `None` (lines 53-54); if the id
changed, flush the buffered rows under the previous id and clear the
buffer (lines 57-62); append the row (line 65); if the buffer now holds
`ROWS_PER_TRIAL` rows, flush it under the current id and clear it
(lines 68-72).  In every accepted case the active id afterwards equals the
line's id. -/
def serial_reader_step (st : SegState) (line : List Char) : SegState :=
  if acceptedData line then
    let parts := splitComma line
    let tid := parts.getLastD []
    let act0 := st.trial_id_active.getD tid
    let out1 := if tid ≠ act0 then st.output ++ [(act0, st.current_rows)] else st.output
    let buf1 := if tid ≠ act0 then [] else st.current_rows
    let buf2 := buf1 ++ [parts]
    if buf2.length = ROWS_PER_TRIAL then
      { current_rows := [], trial_id_active := some tid, output := out1 ++ [(tid, buf2)] }
    else
      { current_rows := buf2, trial_id_active := some tid, output := out1 }
  else st

/-- The whole reader run on a finite stream of decoded lines. -/
def serial_reader (lines : List (List Char)) : SegState :=
  lines.foldl serial_reader_step initState

/-- All rows handed to `writer.writerow` so far, in order. -/
def writtenRows (st : SegState) : List (List (List Char)) :=
  (st.output.map Prod.snd).flatten

/-- The persisted CSV file produced by `main` (lines 98-100): the header
row written exactly once at creation, then every flushed row in arrival
order, each serialized by the CSV writer. -/
def csvFile (lines : List (List Char)) : List (List Char) :=
  HEADER :: (writtenRows (serial_reader lines)).map joinComma

/-- A minimal accepted data line with trial id `a`: twelve commas, twelve
empty fields, last field `a`. -/
def lineA : List Char := (",,,,,,,,,,,,a").data

/-- A minimal accepted data line with trial id `b`. -/
def lineB : List Char := (",,,,,,,,,,,,b").data

/-- The row tokenized from `lineA`. -/
def rowA : List (List Char) := splitComma lineA

/-- Trial id `a` as a field. -/
def idA : List Char := ("a").data

/-- Trial id `b` as a field. -/
def idB : List Char := ("b").data

/-- A reachable mid-trial state: 40 rows buffered under id `a`. -/
def stForty : SegState := ⟨List.replicate 40 rowA, some idA, []⟩

/-- A reachable mid-trial state: 10 rows buffered under id `a`. -/
def stTen : SegState := ⟨List.replicate 10 rowA, some idA, []⟩

/-- The state immediately after a 75-row quota flush of trial `a`: empty
buffer, id still `a`, one completed trial already written. -/
def stAfterQuota : SegState := ⟨[], some idA, [(idA, List.replicate 75 rowA)]⟩

end GloveLogger

namespace CalibrationCapture

/-- Python slice `values[1:6]` (src/calibration_capture.py line 124):
drop the leading `t_s` value, take the next five. -/
def flexSlice (values : List ℚ) : List ℚ := (values.drop 1).take 5

/-- One parsed-line step of `collect_calibration_data`
(src/calibration_capture.py lines 121-125): if the line parsed to at least
5 float values, append `values[1:6]` to the collected data; otherwise the
collection is unchanged. -/
def collectStep (data : List (List ℚ)) (values : List ℚ) : List (List ℚ) :=
  if 5 ≤ values.length then data ++ [flexSlice values] else data

/-- `collect_calibration_data` (src/calibration_capture.py lines 95-140)
on the sequence of float-parsed value vectors received during the
collection window; comment, empty and unparsable lines leave the
collection unchanged in the source (lines 117-128) and are omitted from
the input.  Raises (models lines 136-137) when nothing was collected. -/
def collect_calibration_data (lines : List (List ℚ)) :
    Except String (List (List ℚ)) :=
  let data := lines.foldl collectStep []
  if data = [] then Except.error "No sensor data collected!" else Except.ok data

/-- Result record of `calculate_calibration_values`
(src/calibration_capture.py lines 155-160). -/
structure CalibrationResult where
  sensorBaselines : List ℚ
  sensorMaximums : List ℚ
  sensorMinimums : List ℚ
  calibrationTimestamp : Int
deriving DecidableEq

/-- `np.max` over a nonempty list (0 on the empty list, which the source
never reaches: the collected data is nonempty). -/
def listMax : List ℚ → ℚ
  | [] => 0
  | [x] => x
  | x :: y :: t => max x (listMax (y :: t))

/-- `np.min` over a nonempty list. -/
def listMin : List ℚ → ℚ
  | [] => 0
  | [x] => x
  | x :: y :: t => min x (listMin (y :: t))

/-- Column `j` of the collected samples, the axis-0 slice that
`np.mean/np.max/np.min(..., axis=0)` reduce over.  The source builds a
rectangular `np.array` from the samples, so every row has the width of
the first row; `getD` with default 0 reads entry `j` of each row. -/
def axisCol (data : List (List ℚ)) (j : Nat) : List ℚ :=
  data.map (fun r => r.getD j 0)

/-- `calculate_calibration_values` (src/calibration_capture.py
lines 142-160): per-channel mean, max and min of the collected samples,
plus the capture timestamp `t` (`int(time.time() * 1000)`, passed in). -/
def calculate_calibration_values (t : Int) (data : List (List ℚ)) :
    CalibrationResult :=
  { sensorBaselines := (List.range (data.headD []).length).map
      (fun j => (axisCol data j).sum / (data.length : ℚ))
  , sensorMaximums := (List.range (data.headD []).length).map
      (fun j => listMax (axisCol data j))
  , sensorMinimums := (List.range (data.headD []).length).map
      (fun j => listMin (axisCol data j))
  , calibrationTimestamp := t }

/-- The nested `calibrationData` object of the final record
(src/calibration_capture.py lines 210-214). -/
structure CalRecordData where
  sensorBaselines : List ℚ
  sensorMaximums : List ℚ
  calibrationTimestamp : Int
deriving DecidableEq

/-- The final calibration record keyed by username
(src/calibration_capture.py lines 207-215). -/
structure CalRecord where
  username : String
  isCalibrated : Bool
  calibrationData : CalRecordData
deriving DecidableEq

/-- `run_full_calibration` (src/calibration_capture.py lines 180-224):
collect the rest phase, reduce it, collect the flex phase, reduce it, and
assemble the record; an exception in either phase propagates and no
record is produced.  `t1 t2 t3` are the three timestamps taken; the two
phase inputs are the parsed value vectors received in each window. -/
def run_full_calibration (username : String) (t1 t2 t3 : Int)
    (restLines flexLines : List (List ℚ)) : Except String CalRecord :=
  match collect_calibration_data restLines with
  | Except.error e => Except.error e
  | Except.ok rest_data =>
    match collect_calibration_data flexLines with
    | Except.error e => Except.error e
    | Except.ok flex_data =>
      Except.ok
        { username := username
        , isCalibrated := true
        , calibrationData :=
          { sensorBaselines := (calculate_calibration_values t1 rest_data).sensorBaselines
          , sensorMaximums := (calculate_calibration_values t2 flex_data).sensorMaximums
          , calibrationTimestamp := t3 } }

end CalibrationCapture

namespace GloveLogger

/-- A line that the classifier rejects leaves the loop state untouched. -/
lemma step_skip (st : SegState) (line : List Char)
    (h : acceptedData line = false) :
    serial_reader_step st line = st := by
  simp [serial_reader_step, h]

/-- An accepted data line whose id matches the active id (or arrives while
the id is still unset) and does not complete the quota is appended to the
buffer; the active id becomes the line's id. -/
lemma step_append (st : SegState) (line : List Char)
    (hacc : acceptedData line = true)
    (hact : st.trial_id_active = none ∨ st.trial_id_active = some (tidOf line))
    (hq : st.current_rows.length + 1 ≠ ROWS_PER_TRIAL) :
    serial_reader_step st line =
      ⟨st.current_rows ++ [splitComma line], some (tidOf line), st.output⟩ := by
  rcases hact with h | h <;>
    simp [serial_reader_step, hacc, tidOf, h, hq]

/-- An accepted data line matching the active id that brings the buffer to
`ROWS_PER_TRIAL` rows triggers the quota flush: one completed trial under
the current id, buffer cleared, active id unchanged. -/
lemma step_quota (st : SegState) (line : List Char)
    (hacc : acceptedData line = true)
    (hact : st.trial_id_active = none ∨ st.trial_id_active = some (tidOf line))
    (hq : st.current_rows.length + 1 = ROWS_PER_TRIAL) :
    serial_reader_step st line =
      ⟨[], some (tidOf line),
        st.output ++ [(tidOf line, st.current_rows ++ [splitComma line])]⟩ := by
  rcases hact with h | h <;>
    simp [serial_reader_step, hacc, tidOf, h, hq]

/-- An accepted data line whose id differs from the active id triggers the
boundary flush: the buffered rows are flushed under the previous id, the
buffer restarts with exactly the triggering row, and the new id becomes
active. -/
lemma step_boundary (st : SegState) (line a : List Char)
    (hacc : acceptedData line = true)
    (hact : st.trial_id_active = some a)
    (hne : tidOf line ≠ a) :
    serial_reader_step st line =
      ⟨[splitComma line], some (tidOf line), st.output ++ [(a, st.current_rows)]⟩ := by
  have h75 : (1 : Nat) ≠ ROWS_PER_TRIAL := by decide
  have hne' : (splitComma line).getLast?.getD [] ≠ a := by
    simpa [tidOf, List.getLastD_eq_getLast?] using hne
  simp [serial_reader_step, hacc, tidOf, hact, hne', h75]

/-- One step preserves the conservation identity: the rows written so far
followed by the rows still buffered are exactly the accepted rows
processed so far. -/
lemma step_conserve (st : SegState) (line : List Char) :
    writtenRows (serial_reader_step st line) ++ (serial_reader_step st line).current_rows
      = writtenRows st ++ st.current_rows ++
          (if acceptedData line = true then [splitComma line] else []) := by
  by_cases hacc : acceptedData line = true
  · rcases hst : st.trial_id_active with _ | a
    · by_cases hq : st.current_rows.length + 1 = ROWS_PER_TRIAL
      · rw [step_quota st line hacc (Or.inl hst) hq]
        simp [writtenRows, hacc]
      · rw [step_append st line hacc (Or.inl hst) hq]
        simp [writtenRows, hacc]
    · by_cases hne : tidOf line = a
      · by_cases hq : st.current_rows.length + 1 = ROWS_PER_TRIAL
        · rw [step_quota st line hacc (Or.inr (by rw [hst, hne])) hq]
          simp [writtenRows, hacc]
        · rw [step_append st line hacc (Or.inr (by rw [hst, hne])) hq]
          simp [writtenRows, hacc]
      · rw [step_boundary st line a hacc hst hne]
        simp [writtenRows, hacc]
  · rw [step_skip st line (by simpa using hacc)]
    simp [hacc]

/-- Conservation over a whole run, generalized over the start state. -/
lemma run_conserve (lines : List (List Char)) : ∀ st : SegState,
    writtenRows (List.foldl serial_reader_step st lines)
        ++ (List.foldl serial_reader_step st lines).current_rows
      = writtenRows st ++ st.current_rows
          ++ (lines.filter (fun l => acceptedData l)).map splitComma := by
  induction lines with
  | nil => intro st; simp
  | cons l ls ih =>
    intro st
    simp only [List.foldl_cons]
    rw [ih (serial_reader_step st l), step_conserve]
    by_cases hacc : acceptedData l = true <;>
      simp [hacc, List.filter_cons, List.append_assoc]

/-- One step keeps the buffer strictly below the quota. -/
lemma step_buf_lt (st : SegState) (line : List Char)
    (h : st.current_rows.length < ROWS_PER_TRIAL) :
    (serial_reader_step st line).current_rows.length < ROWS_PER_TRIAL := by
  by_cases hacc : acceptedData line = true
  · rcases hst : st.trial_id_active with _ | a
    · by_cases hq : st.current_rows.length + 1 = ROWS_PER_TRIAL
      · rw [step_quota st line hacc (Or.inl hst) hq]; simp [ROWS_PER_TRIAL]
      · rw [step_append st line hacc (Or.inl hst) hq]; simp; omega
    · by_cases hne : tidOf line = a
      · by_cases hq : st.current_rows.length + 1 = ROWS_PER_TRIAL
        · rw [step_quota st line hacc (Or.inr (by rw [hst, hne])) hq]; simp [ROWS_PER_TRIAL]
        · rw [step_append st line hacc (Or.inr (by rw [hst, hne])) hq]; simp; omega
      · rw [step_boundary st line a hacc hst hne]; simp [ROWS_PER_TRIAL]
  · rw [step_skip st line (by simpa using hacc)]; exact h

/-- The buffer invariant over a whole run. -/
lemma run_buf_lt (lines : List (List Char)) : ∀ st : SegState,
    st.current_rows.length < ROWS_PER_TRIAL →
    (List.foldl serial_reader_step st lines).current_rows.length < ROWS_PER_TRIAL := by
  induction lines with
  | nil => intro st h; simpa using h
  | cons l ls ih =>
    intro st h
    simp only [List.foldl_cons]
    exact ih _ (step_buf_lt st l h)

/-- Feeding accepted rows that all carry the active id, without reaching
the quota, only appends to the buffer. -/
lemma run_append_no_flush (lines : List (List Char)) : ∀ (st : SegState) (a : List Char),
    st.trial_id_active = some a →
    (∀ l ∈ lines, acceptedData l = true ∧ tidOf l = a) →
    st.current_rows.length + lines.length < ROWS_PER_TRIAL →
    List.foldl serial_reader_step st lines =
      ⟨st.current_rows ++ lines.map splitComma, some a, st.output⟩ := by
  induction lines with
  | nil =>
    intro st a hact _ _
    cases st
    simp_all
  | cons l ls ih =>
    intro st a hact hall hlen
    obtain ⟨hacc, htid⟩ := hall l (List.mem_cons_self l ls)
    have hq : st.current_rows.length + 1 ≠ ROWS_PER_TRIAL := by
      simp only [List.length_cons] at hlen; omega
    simp only [List.foldl_cons]
    rw [step_append st l hacc (Or.inr (by rw [hact, htid])) hq, htid]
    rw [ih ⟨st.current_rows ++ [splitComma l], some a, st.output⟩ a rfl
      (fun x hx => hall x (List.mem_cons_of_mem l hx))
      (by simp only [List.length_cons] at hlen; simp; omega)]
    simp

/-- Feeding accepted rows that all carry the active id until the buffer
reaches exactly the quota produces exactly one flush under that id and an
empty buffer; the active id is unchanged. -/
lemma run_quota_flush (lines : List (List Char)) : ∀ (st : SegState) (a : List Char),
    st.trial_id_active = some a →
    (∀ l ∈ lines, acceptedData l = true ∧ tidOf l = a) →
    st.current_rows.length + lines.length = ROWS_PER_TRIAL →
    lines ≠ [] →
    List.foldl serial_reader_step st lines =
      ⟨[], some a, st.output ++ [(a, st.current_rows ++ lines.map splitComma)]⟩ := by
  induction lines with
  | nil => intro st a _ _ _ hne; exact absurd rfl hne
  | cons l ls ih =>
    intro st a hact hall hlen _
    obtain ⟨hacc, htid⟩ := hall l (List.mem_cons_self l ls)
    by_cases hls : ls = []
    · subst hls
      simp only [List.length_cons, List.length_nil] at hlen
      simp only [List.foldl_cons, List.foldl_nil]
      rw [step_quota st l hacc (Or.inr (by rw [hact, htid])) (by omega), htid]
      simp
    · have hq : st.current_rows.length + 1 ≠ ROWS_PER_TRIAL := by
        have hpos : 0 < ls.length := List.length_pos.mpr hls
        simp only [List.length_cons] at hlen
        omega
      simp only [List.foldl_cons]
      rw [step_append st l hacc (Or.inr (by rw [hact, htid])) hq, htid]
      rw [ih ⟨st.current_rows ++ [splitComma l], some a, st.output⟩ a rfl
        (fun x hx => hall x (List.mem_cons_of_mem l hx))
        (by simp only [List.length_cons] at hlen; simp; omega) hls]
      simp

/-- `str.split` never returns an empty list. -/
lemma splitComma_ne_nil (l : List Char) : splitComma l ≠ [] := by
  cases l with
  | nil => simp [splitComma]
  | cons c cs =>
    simp only [splitComma]
    by_cases h : c = ','
    · simp [h]
    · simp only [if_neg h]
      cases splitComma cs <;> simp

/-- Unfolding of `joinComma` on a list of two or more fields. -/
lemma joinComma_cons_cons (f g : List Char) (rest : List (List Char)) :
    joinComma (f :: g :: rest) = f ++ ',' :: joinComma (g :: rest) := rfl

/-- Joining the comma-split of a line with commas restores the line: the
CSV writer re-emits exactly the text the classifier tokenized. -/
lemma joinComma_splitComma (l : List Char) : joinComma (splitComma l) = l := by
  induction l with
  | nil => rfl
  | cons c cs ih =>
    obtain ⟨f, rest, hfr⟩ : ∃ f rest, splitComma cs = f :: rest := by
      cases hh : splitComma cs with
      | nil => exact absurd hh (splitComma_ne_nil cs)
      | cons f rest => exact ⟨f, rest, rfl⟩
    by_cases h : c = ','
    · subst h
      rw [show splitComma (',' :: cs) = [] :: splitComma cs from by simp [splitComma]]
      rw [hfr] at ih ⊢
      rw [joinComma_cons_cons]
      simpa using ih
    · have hsp : splitComma (c :: cs) = (c :: f) :: rest := by
        simp only [splitComma, if_neg h, hfr]
      rw [hfr] at ih
      rw [hsp]
      cases rest with
      | nil =>
        simp only [joinComma] at ih ⊢
        rw [ih]
      | cons g rest' =>
        rw [joinComma_cons_cons] at ih
        rw [joinComma_cons_cons]
        simp [ih]

/-- An accepted data line does not start with the stale-header text. -/
lemma acceptedData_not_ts (l : List Char) (h : acceptedData l = true) :
    leadsWith tsLead l = false := by
  simp only [acceptedData, Bool.and_eq_true, Bool.not_eq_true'] at h
  exact h.1.1.2

/-- Every row ever written to the store is the tokenization of some
accepted data line. -/
lemma written_mem_split (lines : List (List Char)) :
    ∀ r ∈ writtenRows (serial_reader lines),
      ∃ l, acceptedData l = true ∧ r = splitComma l := by
  intro r hr
  have hcons := run_conserve lines initState
  have hid : writtenRows (serial_reader lines) ++ (serial_reader lines).current_rows
      = (lines.filter (fun l => acceptedData l)).map splitComma := by
    simpa [serial_reader, initState, writtenRows] using hcons
  have hr2 : r ∈ (lines.filter (fun l => acceptedData l)).map splitComma := by
    rw [← hid]
    exact List.mem_append_left _ hr
  obtain ⟨l, hl, hrl⟩ := List.mem_map.mp hr2
  exact ⟨l, List.of_mem_filter hl, hrl.symm⟩

end GloveLogger

namespace GloveLogger

/-- Claim C1: for every input sequence of data rows sharing one trial id,
fed from a state with an empty buffer, when the buffer length reaches
`ROWS_PER_TRIAL` (75) exactly one completed trial of exactly 75 rows is
emitted to the sink, the buffer is reset to empty, and the active trial id
is left unchanged. -/
theorem trial_quota_flush_spec (st : SegState) (a : List Char)
    (lines : List (List Char))
    (hbuf : st.current_rows = [])
    (hact : st.trial_id_active = some a ∨ st.trial_id_active = none)
    (hall : ∀ l ∈ lines, acceptedData l = true ∧ tidOf l = a)
    (hlen : lines.length = ROWS_PER_TRIAL) :
    List.foldl serial_reader_step st lines =
      ⟨[], some a, st.output ++ [(a, lines.map splitComma)]⟩ := by
  rcases hact with hact | hact
  · have h := run_quota_flush lines st a hact hall
      (by rw [hbuf]; simpa using hlen)
      (by intro h0; rw [h0] at hlen; simp at hlen; exact absurd hlen (by decide))
    rw [h, hbuf]
    simp
  · cases lines with
    | nil => simp at hlen; exact absurd hlen (by decide)
    | cons l ls =>
      obtain ⟨hacc, htid⟩ := hall l (List.mem_cons_self l ls)
      have hq : st.current_rows.length + 1 ≠ ROWS_PER_TRIAL := by
        rw [hbuf]; decide
      simp only [List.foldl_cons]
      rw [step_append st l hacc (Or.inl hact) hq, htid, hbuf]
      rw [run_quota_flush ls ⟨[] ++ [splitComma l], some a, st.output⟩ a rfl
        (fun x hx => hall x (List.mem_cons_of_mem l hx))
        (by simp only [List.length_cons] at hlen; simp; omega)
        (by intro h0; rw [h0] at hlen; simp at hlen; exact absurd hlen (by decide))]
      simp

/-- Witness for C1: 75 rows of trial id `a` from the initial state produce
exactly one 75-row flush under id `a` and leave the buffer empty. -/
theorem trial_quota_flush_spec_witness :
    List.foldl serial_reader_step initState (List.replicate 75 lineA) =
      ⟨[], some idA, initState.output ++ [(idA, (List.replicate 75 lineA).map splitComma)]⟩ :=
  trial_quota_flush_spec initState idA (List.replicate 75 lineA) rfl (Or.inr rfl)
    (fun l hl => by rw [List.eq_of_mem_replicate hl]; exact ⟨by decide, by decide⟩)
    (by decide)

/-- Claim C2: when the trial id changes before 75 rows have accumulated,
exactly one completed trial holding the rows accumulated so far is emitted
under the previous active id, the buffer restarts with exactly the
triggering row, and the new id becomes active. -/
theorem trial_boundary_flush_spec (st : SegState) (a b line : List Char)
    (hact : st.trial_id_active = some a)
    (hacc : acceptedData line = true)
    (htid : tidOf line = b)
    (hne : b ≠ a)
    (_hshort : st.current_rows.length < ROWS_PER_TRIAL) :
    serial_reader_step st line =
      ⟨[splitComma line], some b, st.output ++ [(a, st.current_rows)]⟩ := by
  have h := step_boundary st line a hacc hact (by rw [htid]; exact hne)
  rw [h, htid]

/-- Witness for C2: 40 rows buffered under id `a`, then a row with id `b`:
one flush of the 40 rows under `a`, buffer restarts with the new row. -/
theorem trial_boundary_flush_spec_witness :
    serial_reader_step stForty lineB =
      ⟨[splitComma lineB], some idB, stForty.output ++ [(idA, stForty.current_rows)]⟩ :=
  trial_boundary_flush_spec stForty idA idB lineB rfl (by decide) (by decide)
    (by decide) (by decide)

/-- Claim C3: on any finite run the persisted rows followed by the rows
still buffered at stream end are exactly the accepted data rows, so the
final buffer's rows are never written; in particular a run of fewer than
75 rows under a single unchanged id persists nothing at all. -/
theorem stream_end_no_flush_spec :
    (∀ lines : List (List Char),
        writtenRows (serial_reader lines) ++ (serial_reader lines).current_rows
          = (lines.filter (fun l => acceptedData l)).map splitComma)
    ∧ ∀ (a : List Char) (lines : List (List Char)),
        (∀ l ∈ lines, acceptedData l = true ∧ tidOf l = a) →
        lines.length < ROWS_PER_TRIAL →
        (serial_reader lines).output = [] ∧
          (serial_reader lines).current_rows = lines.map splitComma := by
  constructor
  · intro lines
    have hcons := run_conserve lines initState
    simpa [serial_reader, initState, writtenRows] using hcons
  · intro a lines hall hlen
    cases lines with
    | nil => exact ⟨rfl, rfl⟩
    | cons l ls =>
      obtain ⟨hacc, htid⟩ := hall l (List.mem_cons_self l ls)
      have hq : (initState.current_rows).length + 1 ≠ ROWS_PER_TRIAL := by decide
      unfold serial_reader
      simp only [List.foldl_cons]
      rw [step_append initState l hacc (Or.inl rfl) hq, htid]
      rw [run_append_no_flush ls ⟨initState.current_rows ++ [splitComma l], some a,
            initState.output⟩ a rfl
        (fun x hx => hall x (List.mem_cons_of_mem l hx))
        (by simp only [List.length_cons] at hlen; simp [initState]; omega)]
      constructor
      · rfl
      · simp [initState]

/-- Witness for C3: 30 rows under one id produce no flush and all 30 rows
remain buffered, never persisted. -/
theorem stream_end_no_flush_spec_witness :
    (serial_reader (List.replicate 30 lineA)).output = [] ∧
      (serial_reader (List.replicate 30 lineA)).current_rows
        = (List.replicate 30 lineA).map splitComma :=
  stream_end_no_flush_spec.2 idA (List.replicate 30 lineA)
    (fun l hl => by rw [List.eq_of_mem_replicate hl]; exact ⟨by decide, by decide⟩)
    (by decide)

/-- Claim C4: a line that is empty, a comment, a stale header, or
malformed (separator count not 12) leaves the segmenter state completely
unchanged: no row reaches the segmenter, the active id, the buffer and the
output are untouched. -/
theorem non_data_no_effect_spec (st : SegState) (line : List Char)
    (h : line = [] ∨ leadsWith ['#'] line = true ∨ leadsWith tsLead line = true ∨
      line.count ',' ≠ 12) :
    serial_reader_step st line = st := by
  apply step_skip
  rcases h with h | h | h | h
  · subst h; decide
  · simp [acceptedData, h]
  · simp [acceptedData, h]
  · simp [acceptedData, h]

/-- Witness for C4: the device header line arriving after 10 buffered data
rows leaves the state unchanged with exactly 10 rows still buffered. -/
theorem non_data_no_effect_spec_witness :
    serial_reader_step stTen HEADER = stTen ∧ stTen.current_rows.length = 10 :=
  ⟨non_data_no_effect_spec stTen HEADER (Or.inr (Or.inr (Or.inl (by decide)))),
    by decide⟩

/-- Claim C5: the persisted store holds the fixed header exactly once,
followed by the serialized rows of every flushed trial in arrival order,
and parsing those serialized rows back yields the same field tuples. -/
theorem store_header_roundtrip_spec :
    ∀ lines : List (List Char),
      (csvFile lines).count HEADER = 1
      ∧ csvFile lines = HEADER :: (writtenRows (serial_reader lines)).map joinComma
      ∧ ((writtenRows (serial_reader lines)).map joinComma).map splitComma
          = writtenRows (serial_reader lines) := by
  intro lines
  refine ⟨?_, rfl, ?_⟩
  · unfold csvFile
    rw [List.count_cons_self]
    have hz : ((writtenRows (serial_reader lines)).map joinComma).count HEADER = 0 := by
      rw [List.count_eq_zero]
      intro hmem
      obtain ⟨r, hr, hjoin⟩ := List.mem_map.mp hmem
      obtain ⟨l, hl, hrl⟩ := written_mem_split lines r hr
      rw [hrl, joinComma_splitComma] at hjoin
      subst hjoin
      have hts := acceptedData_not_ts _ hl
      rw [show leadsWith tsLead HEADER = true from by decide] at hts
      exact absurd hts (by decide)
    rw [hz]
  · rw [List.map_map]
    conv_rhs => rw [← List.map_id (writtenRows (serial_reader lines))]
    apply List.map_congr_left
    intro r hr
    obtain ⟨l, _, hrl⟩ := written_mem_split lines r hr
    simp [hrl, joinComma_splitComma]

/-- Claim C9: a data row with a new id arriving on an empty buffer (as
after a quota flush) emits a zero-row completion acknowledgment for the
previous id, writes no rows, and accumulation continues under the new
id. -/
theorem empty_buffer_boundary_spec (st : SegState) (a b line : List Char)
    (hbuf : st.current_rows = [])
    (hact : st.trial_id_active = some a)
    (hacc : acceptedData line = true)
    (htid : tidOf line = b)
    (hne : b ≠ a) :
    serial_reader_step st line =
      ⟨[splitComma line], some b, st.output ++ [(a, [])]⟩
    ∧ writtenRows (serial_reader_step st line) = writtenRows st := by
  have h := step_boundary st line a hacc hact (by rw [htid]; exact hne)
  rw [h, htid, hbuf]
  exact ⟨rfl, by simp [writtenRows]⟩

/-- Witness for C9: right after a 75-row flush of trial `a`, a row with id
`b` yields a zero-row acknowledgment for `a` and no new written rows. -/
theorem empty_buffer_boundary_spec_witness :
    serial_reader_step stAfterQuota lineB =
      ⟨[splitComma lineB], some idB, stAfterQuota.output ++ [(idA, [])]⟩
    ∧ writtenRows (serial_reader_step stAfterQuota lineB) = writtenRows stAfterQuota :=
  empty_buffer_boundary_spec stAfterQuota idA idB lineB rfl rfl (by decide)
    (by decide) (by decide)

/-- Claim C10: after processing any line the buffer holds strictly fewer
than 75 rows: the quota flush fires in the same step in which the buffer
reaches 75, for every state reachable by the reader loop. -/
theorem buffer_below_quota_spec :
    (∀ lines : List (List Char),
        (serial_reader lines).current_rows.length < ROWS_PER_TRIAL)
    ∧ ∀ (st : SegState) (line : List Char),
        st.current_rows.length < ROWS_PER_TRIAL →
        (serial_reader_step st line).current_rows.length < ROWS_PER_TRIAL := by
  exact ⟨fun lines => run_buf_lt lines initState (by decide), step_buf_lt⟩

/-- Witness for C10: one step on a 40-row buffer keeps the buffer below
the 75-row quota. -/
theorem buffer_below_quota_spec_witness :
    (serial_reader_step stForty lineA).current_rows.length < ROWS_PER_TRIAL :=
  buffer_below_quota_spec.2 stForty lineA (by decide)

end GloveLogger

namespace CalibrationCapture

/-- `listMax` of a nonempty list is one of its elements. -/
lemma listMax_mem (l : List ℚ) (h : l ≠ []) : listMax l ∈ l := by
  induction l with
  | nil => exact absurd rfl h
  | cons x t ih =>
    cases t with
    | nil => simp [listMax]
    | cons y t' =>
      rw [show listMax (x :: y :: t') = max x (listMax (y :: t')) from rfl]
      rcases max_choice x (listMax (y :: t')) with hm | hm
      · rw [hm]; exact List.mem_cons_self _ _
      · rw [hm]; exact List.mem_cons_of_mem _ (ih (by simp))

/-- `listMax` bounds every element from above. -/
lemma le_listMax (l : List ℚ) : ∀ x ∈ l, x ≤ listMax l := by
  induction l with
  | nil => intro x hx; simp at hx
  | cons a t ih =>
    intro x hx
    cases t with
    | nil =>
      simp only [List.mem_singleton] at hx
      simp [listMax, hx]
    | cons y t' =>
      rw [show listMax (a :: y :: t') = max a (listMax (y :: t')) from rfl]
      rcases List.mem_cons.mp hx with h | h
      · rw [h]; exact le_max_left _ _
      · exact le_trans (ih x h) (le_max_right _ _)

/-- `listMin` of a nonempty list is one of its elements. -/
lemma listMin_mem (l : List ℚ) (h : l ≠ []) : listMin l ∈ l := by
  induction l with
  | nil => exact absurd rfl h
  | cons x t ih =>
    cases t with
    | nil => simp [listMin]
    | cons y t' =>
      rw [show listMin (x :: y :: t') = min x (listMin (y :: t')) from rfl]
      rcases min_choice x (listMin (y :: t')) with hm | hm
      · rw [hm]; exact List.mem_cons_self _ _
      · rw [hm]; exact List.mem_cons_of_mem _ (ih (by simp))

/-- `listMin` bounds every element from below. -/
lemma listMin_le (l : List ℚ) : ∀ x ∈ l, listMin l ≤ x := by
  induction l with
  | nil => intro x hx; simp at hx
  | cons a t ih =>
    intro x hx
    cases t with
    | nil =>
      simp only [List.mem_singleton] at hx
      simp [listMin, hx]
    | cons y t' =>
      rw [show listMin (a :: y :: t') = min a (listMin (y :: t')) from rfl]
      rcases List.mem_cons.mp hx with h | h
      · rw [h]; exact min_le_left _ _
      · exact le_trans (min_le_right _ _) (ih x h)

/-- Reading entry `j < w` of a map over `List.range w`. -/
lemma getD_map_range (w j : Nat) (f : Nat → ℚ) (hj : j < w) :
    ((List.range w).map f).getD j 0 = f j := by
  rw [List.getD_eq_getElem?_getD]
  simp [List.getElem?_map, List.getElem?_range, hj]

/-- Claim C6 fails on the code: a line parsing to exactly five values,
such as `1,2,3,4,5`, passes the `len(values) >= 5` guard, yet
`values[1:6]` then holds only four values, so a 4-wide sample is appended
to the collection — contradicting the fixed 5-wide CalibrationSample that
the code's own comments (`At least flex1-flex5`, `Extract flex1-flex5`)
and the spec demand.  The guard counts the leading `t_s` column, so it
should require at least six values. -/
theorem calibration_sample_width_bug :
    5 ≤ ([1, 2, 3, 4, 5] : List ℚ).length
    ∧ collectStep [] [1, 2, 3, 4, 5] = [[2, 3, 4, 5]]
    ∧ ([2, 3, 4, 5] : List ℚ).length ≠ 5 := by
  refine ⟨by norm_num, ?_, by norm_num⟩
  norm_num [collectStep, flexSlice]

/-- Claim C7: for nonempty collected data, the reduction returns per
channel the arithmetic mean as baseline, the maximum, and the minimum;
and on the concrete samples of Scenario E it returns baseline
`[2,3,4,5,6]`, maximum `[3,4,5,6,7]`, minimum `[1,2,3,4,5]`. -/
theorem calibration_reduction_spec :
    (∀ (t : Int) (data : List (List ℚ)), data ≠ [] →
      ∀ j, j < (data.headD []).length →
        ((calculate_calibration_values t data).sensorBaselines.getD j 0
            = (axisCol data j).sum / (data.length : ℚ)
        ∧ ((calculate_calibration_values t data).sensorMaximums.getD j 0 ∈ axisCol data j
            ∧ ∀ x ∈ axisCol data j,
                x ≤ (calculate_calibration_values t data).sensorMaximums.getD j 0)
        ∧ ((calculate_calibration_values t data).sensorMinimums.getD j 0 ∈ axisCol data j
            ∧ ∀ x ∈ axisCol data j,
                (calculate_calibration_values t data).sensorMinimums.getD j 0 ≤ x)))
    ∧ calculate_calibration_values 0 [[1, 2, 3, 4, 5], [3, 4, 5, 6, 7]]
        = ⟨[2, 3, 4, 5, 6], [3, 4, 5, 6, 7], [1, 2, 3, 4, 5], 0⟩ := by
  constructor
  · intro t data hne j hj
    have hcol : axisCol data j ≠ [] := by
      simpa [axisCol] using hne
    refine ⟨?_, ⟨?_, ?_⟩, ⟨?_, ?_⟩⟩
    · simp only [calculate_calibration_values]
      rw [getD_map_range _ _ _ hj]
    · simp only [calculate_calibration_values]
      rw [getD_map_range _ _ _ hj]
      exact listMax_mem _ hcol
    · intro x hx
      simp only [calculate_calibration_values]
      rw [getD_map_range _ _ _ hj]
      exact le_listMax _ x hx
    · simp only [calculate_calibration_values]
      rw [getD_map_range _ _ _ hj]
      exact listMin_mem _ hcol
    · intro x hx
      simp only [calculate_calibration_values]
      rw [getD_map_range _ _ _ hj]
      exact listMin_le _ x hx
  · simp [calculate_calibration_values, axisCol, listMax, listMin, List.range_succ]
    norm_num

/-- Witness for C7 at channel 0 of the Scenario E samples. -/
theorem calibration_reduction_spec_witness :
    (calculate_calibration_values 0 [[1, 2, 3, 4, 5], [3, 4, 5, 6, 7]]).sensorBaselines.getD 0 0
        = (axisCol [[1, 2, 3, 4, 5], [3, 4, 5, 6, 7]] 0).sum
            / (([[1, 2, 3, 4, 5], [3, 4, 5, 6, 7]] : List (List ℚ)).length : ℚ)
    ∧ ((calculate_calibration_values 0 [[1, 2, 3, 4, 5], [3, 4, 5, 6, 7]]).sensorMaximums.getD 0 0
          ∈ axisCol [[1, 2, 3, 4, 5], [3, 4, 5, 6, 7]] 0
        ∧ ∀ x ∈ axisCol [[1, 2, 3, 4, 5], [3, 4, 5, 6, 7]] 0,
            x ≤ (calculate_calibration_values 0 [[1, 2, 3, 4, 5], [3, 4, 5, 6, 7]]).sensorMaximums.getD 0 0)
    ∧ ((calculate_calibration_values 0 [[1, 2, 3, 4, 5], [3, 4, 5, 6, 7]]).sensorMinimums.getD 0 0
          ∈ axisCol [[1, 2, 3, 4, 5], [3, 4, 5, 6, 7]] 0
        ∧ ∀ x ∈ axisCol [[1, 2, 3, 4, 5], [3, 4, 5, 6, 7]] 0,
            (calculate_calibration_values 0 [[1, 2, 3, 4, 5], [3, 4, 5, 6, 7]]).sensorMinimums.getD 0 0 ≤ x) :=
  calibration_reduction_spec.1 0 [[1, 2, 3, 4, 5], [3, 4, 5, 6, 7]]
    (by simp) 0 (by norm_num)

/-- Claim C8: a phase that collects zero samples makes the calibration run
fail with the descriptive error and no record is produced; a record is
produced exactly when both phases collected at least one sample. -/
theorem empty_phase_fails_spec :
    ∀ (u : String) (t1 t2 t3 : Int) (restLines flexLines : List (List ℚ)),
      ((restLines.foldl collectStep [] = [] ∨ flexLines.foldl collectStep [] = []) →
        run_full_calibration u t1 t2 t3 restLines flexLines
          = Except.error "No sensor data collected!")
      ∧ ((∃ r, run_full_calibration u t1 t2 t3 restLines flexLines = Except.ok r)
          ↔ (restLines.foldl collectStep [] ≠ [] ∧ flexLines.foldl collectStep [] ≠ [])) := by
  intro u t1 t2 t3 restLines flexLines
  by_cases hr : restLines.foldl collectStep [] = []
  · refine ⟨fun _ => ?_, ?_, ?_⟩
    · simp [run_full_calibration, collect_calibration_data, hr]
    · rintro ⟨r, hrec⟩
      simp [run_full_calibration, collect_calibration_data, hr] at hrec
    · rintro ⟨h1, _⟩
      exact absurd hr h1
  · by_cases hf : flexLines.foldl collectStep [] = []
    · refine ⟨fun _ => ?_, ?_, ?_⟩
      · simp [run_full_calibration, collect_calibration_data, hr, hf]
      · rintro ⟨r, hrec⟩
        simp [run_full_calibration, collect_calibration_data, hr, hf] at hrec
      · rintro ⟨_, h2⟩
        exact absurd hf h2
    · refine ⟨?_, fun _ => ⟨hr, hf⟩, ?_⟩
      · rintro (h | h)
        · exact absurd h hr
        · exact absurd h hf
      · intro _
        refine ⟨{ username := u, isCalibrated := true
                , calibrationData :=
                  { sensorBaselines :=
                      (calculate_calibration_values t1 (restLines.foldl collectStep [])).sensorBaselines
                  , sensorMaximums :=
                      (calculate_calibration_values t2 (flexLines.foldl collectStep [])).sensorMaximums
                  , calibrationTimestamp := t3 } }, ?_⟩
        simp [run_full_calibration, collect_calibration_data, hr, hf]

/-- Witness for C8: an empty rest phase fails the run with the
descriptive error. -/
theorem empty_phase_fails_spec_witness :
    run_full_calibration "user" 0 0 0 [] [[1, 2, 3, 4, 5, 6]]
      = Except.error "No sensor data collected!" :=
  (empty_phase_fails_spec "user" 0 0 0 [] [[1, 2, 3, 4, 5, 6]]).1 (Or.inl rfl)

end CalibrationCapture
